import Mathlib

/-!
Verification of the PFAS peak-identification pipeline of this repository:
the fingerprint engine and detection core (`utils/data_processing.py`,
`utils/detection.py`) and the unknown-feature store (`utils/unknown_manager.py`).

Python floats are modelled as exact rationals.  Cosine similarity involves a
square root, so similarity scores (and the confidence values computed from
them) live in the reals; every other quantity stays in `ℚ` and is computable.
-/

namespace PFAS

/-! ### Fingerprint binning: `data_processing.bin_spectrum_fingerprint` -/

/-- Number of bin edges produced by `np.arange(mz_min, mz_max + bin_size, bin_size)`:
`arange` yields `start + i * step` for `i < ⌈(stop - start) / step⌉`. -/
def numEdges (mz_min mz_max bin_size : ℚ) : ℕ :=
  (⌈(mz_max + bin_size - mz_min) / bin_size⌉).toNat

/-- The `i`-th bin edge of `np.arange(mz_min, mz_max + bin_size, bin_size)`. -/
def binEdge (mz_min bin_size : ℚ) (i : ℕ) : ℚ := mz_min + i * bin_size

/-- `np.digitize(x, bins)` with the default `right=False` on the strictly
increasing edge grid: the index `i` such that `bins[i-1] <= x < bins[i]`,
which for ascending bins is the number of edges that are `≤ x`. -/
def digitize (mz_min mz_max bin_size x : ℚ) : ℕ :=
  ((Finset.range (numEdges mz_min mz_max bin_size)).filter
    (fun i => binEdge mz_min bin_size i ≤ x)).card

/-- The accumulation loop of `bin_spectrum_fingerprint`:
`if 0 < bin_idx < len(bins): binned_intensities[bin_idx-1] += int_clean[i]`. -/
def binLoop (mz_min mz_max bin_size : ℚ) : List (ℚ × ℚ) → List ℚ → List ℚ
  | [], acc => acc
  | p :: rest, acc =>
    let d := digitize mz_min mz_max bin_size p.1
    binLoop mz_min mz_max bin_size rest
      (if 0 < d ∧ d < numEdges mz_min mz_max bin_size then
        acc.set (d - 1) (acc.getD (d - 1) 0 + p.2)
      else acc)

/-- `data_processing.bin_spectrum_fingerprint`: keep the (m/z, intensity)
pairs whose mass lies in `[mz_min, mz_max]`, digitize the masses on the
`np.arange` grid and sum intensities per bin into `np.zeros(len(bins) - 1)`;
with no surviving pair the zero vector is returned directly.  (The `bin_mz`
column of the returned frame is not consumed by the pipeline and is omitted.) -/
def bin_spectrum_fingerprint (mz intensity : List ℚ)
    (mz_min mz_max bin_size : ℚ) : List ℚ :=
  let pairs := mz.zip intensity
  let clean := pairs.filter (fun p => decide (mz_min ≤ p.1) && decide (p.1 ≤ mz_max))
  let zeros := List.replicate (numEdges mz_min mz_max bin_size - 1) (0 : ℚ)
  if clean.isEmpty then zeros
  else binLoop mz_min mz_max bin_size clean zeros

/-! ### Normalization and fingerprints: `detection.generate_fingerprint_vector` -/

/-- `np.max(v) if len(v) > 0 else 0` (line 59 of `detection.py`). -/
def pythMax : List ℚ → ℚ
  | [] => 0
  | x :: xs => xs.foldl max x

/-- The `Max = 1` scaling of `generate_fingerprint_vector` (lines 58-62):
divide every entry by the maximum when that maximum is positive, otherwise
return the vector unchanged. -/
def normalizeMax (v : List ℚ) : List ℚ :=
  if 0 < pythMax v then v.map (fun x => x / pythMax v) else v

/-- `detection.generate_fingerprint_vector`: bin, then max-normalize. -/
def generate_fingerprint_vector (mz intensity : List ℚ)
    (mz_min mz_max bin_size : ℚ) : List ℚ :=
  normalizeMax (bin_spectrum_fingerprint mz intensity mz_min mz_max bin_size)

/-! ### Cosine similarity: `detection.calculate_similarity` -/

/-- `np.dot` on the (already truncated to equal length) vectors. -/
def dotProd : List ℚ → List ℚ → ℚ
  | a :: as, b :: bs => a * b + dotProd as bs
  | _, _ => 0

/-- Sum of squares, i.e. the square of `np.linalg.norm`. -/
def sumSq (v : List ℚ) : ℚ := dotProd v v

/-- `np.linalg.norm` (the Euclidean norm). -/
noncomputable def pyNorm (v : List ℚ) : ℝ := Real.sqrt ((sumSq v : ℚ) : ℝ)

open scoped Classical in
/-- `detection.calculate_similarity`: 0.0 on an empty argument, truncate both
vectors to the shorter length, 0.0 when either norm vanishes, otherwise the
dot product over the product of norms. -/
noncomputable def calculate_similarity (input_fp target_fp : List ℚ) : ℝ :=
  if input_fp.length = 0 ∨ target_fp.length = 0 then 0
  else
    let n := min input_fp.length target_fp.length
    let a := input_fp.take n
    let b := target_fp.take n
    if pyNorm a = 0 ∨ pyNorm b = 0 then 0
    else ((dotProd a b : ℚ) : ℝ) / (pyNorm a * pyNorm b)

/-! ### Candidate filtering: `detection.filter_candidates_fast` -/

/-- One row of the reference library, with the columns the detection pipeline
reads: `precursor_mz`, `rt_mean` (a NaN entry is `none`), `Family` and
`fingerprint` (a `None` entry is `none`). -/
structure Compound where
  precursor_mz : ℚ
  rt_mean : Option ℚ
  family : String
  fingerprint : Option (List ℚ)

/-- `detection.filter_candidates_fast`: the vectorized ppm mass window
(relative to the library mass) and, when a retention time is supplied, the
RT window that lets rows with unknown RT pass.  The code's
`'rt_mean' in filtered.columns` test is always true for libraries built by
`pfas_library.load_library_data`, which creates the column (filling NaN) when
the store lacks it; a NaN entry is `rt_mean = none` here. -/
def filter_candidates_fast (library : List Compound) (input_mz : ℚ)
    (input_rt : Option ℚ) (mz_tolerance_ppm rt_margin : ℚ) : List Compound :=
  if library.isEmpty then library
  else
    let ppm_factor := mz_tolerance_ppm * (1e-6 : ℚ)
    let filtered := library.filter
      (fun c => decide (|c.precursor_mz - input_mz| ≤ c.precursor_mz * ppm_factor))
    match input_rt with
    | none => filtered
    | some rt =>
      if filtered.isEmpty then filtered
      else
        filtered.filter (fun c =>
          match c.rt_mean with
          | none => true
          | some v => decide (rt - rt_margin ≤ v) && decide (v ≤ rt + rt_margin))

/-! ### Ranking and family vote: `detection.predict_family_rule_based` -/

/-- A candidate row after `analyze_peak` added the `similarity` and
`mz_error_ppm` columns. -/
structure Ranked where
  compound : Compound
  similarity : ℝ
  mz_error_ppm : ℚ

/-- `np.abs(precursor_mz - input_mz) / precursor_mz * 1e6` (line 157). -/
def mzErrorPpm (input_mz : ℚ) (c : Compound) : ℚ :=
  |c.precursor_mz - input_mz| / c.precursor_mz * (1e6 : ℚ)

/-- The family keys of `groupby('Family')` / `value_counts()`, one per
distinct label.  (pandas additionally sorts the keys; no behaviour verified
here depends on the grouping order, so first-occurrence order is used.) -/
def famList (cands : List Ranked) : List String :=
  (cands.map (fun r => r.compound.family)).dedup

/-- `groupby('Family')['similarity'].sum()` for one family key. -/
def famSim (cands : List Ranked) (f : String) : ℝ :=
  ((cands.filter (fun r => decide (r.compound.family = f))).map
    (fun r => r.similarity)).sum

/-- `candidates['Family'].value_counts()` for one family key. -/
def famCount (cands : List Ranked) (f : String) : ℕ :=
  (cands.filter (fun r => decide (r.compound.family = f))).length

/-- `Series.idxmax`: the first key attaining the maximum value. -/
def idxmax {β : Type} [LinearOrder β] (vals : String → β) : List String → String → String
  | [], best => best
  | f :: t, best => idxmax vals t (if vals best < vals f then f else best)

/-- `detection.predict_family_rule_based`.  The `hasSimilarityColumn` flag is
the test `'similarity' in candidates.columns`; `analyze_peak` always passes a
frame carrying that column (line 156), so the pipeline calls this with `true`. -/
noncomputable def predict_family_rule_based (hasSimilarityColumn : Bool)
    (candidates : List Ranked) : String × ℝ :=
  if candidates.isEmpty then ("Unknown", 0)
  else if hasSimilarityColumn then
    let total : ℝ := (candidates.map (fun r => r.similarity)).sum
    if 0 < total then
      match famList candidates with
      | [] => ("Unknown", 0)
      | f :: fs =>
        let best := idxmax (famSim candidates) fs f
        (best, famSim candidates best / total)
    else ("Unknown", 0)
  else
    match famList candidates with
    | [] => ("Unknown", 0)
    | f :: fs =>
      let best := idxmax (famCount candidates) fs f
      (best, ((famCount candidates best : ℚ) : ℝ) / (candidates.length : ℚ))

/-! ### The main pipeline: `detection.analyze_peak` -/

/-- Sort key of `sort_values(by=['similarity', 'mz_error_ppm'],
ascending=[False, True])`. -/
def specLe (a b : Ranked) : Prop :=
  b.similarity < a.similarity ∨
    (b.similarity = a.similarity ∧ a.mz_error_ppm ≤ b.mz_error_ppm)

/-- Sort key of `sort_values(by=['mz_error_ppm'], ascending=True)`. -/
def massLe (a b : Ranked) : Prop := a.mz_error_ppm ≤ b.mz_error_ppm

instance : DecidableRel massLe :=
  fun a b => inferInstanceAs (Decidable (a.mz_error_ppm ≤ b.mz_error_ppm))

instance : IsTotal Ranked massLe :=
  ⟨fun a b => le_total a.mz_error_ppm b.mz_error_ppm⟩

instance : IsTrans Ranked massLe :=
  ⟨fun _ _ _ h1 h2 => le_trans h1 h2⟩

/-- Python truthiness of an optional-list argument (`if spectrum_mz:`). -/
def listTruthy : Option (List ℚ) → Bool
  | none => false
  | some l => !l.isEmpty

/-- `top_n.iloc[0]['similarity'] if not top_n.empty else 0.0` (line 193). -/
def headSim : List Ranked → ℝ
  | [] => 0
  | r :: _ => r.similarity

open scoped Classical in
/-- Steps 1 and 2 of `analyze_peak` (lines 149-177): filter the library, add
the `similarity` (initially 0.0) and `mz_error_ppm` columns, rank either by
spectral similarity (when both spectrum lists are truthy) or by mass error
alone, and keep the top 10 rows. -/
noncomputable def pipelineTopN (library : List Compound) (input_mz : ℚ)
    (input_rt : Option ℚ) (spectrum_mz spectrum_int : Option (List ℚ))
    (mz_tolerance rt_margin : ℚ) : List Ranked :=
  let filtered := filter_candidates_fast library input_mz input_rt mz_tolerance rt_margin
  let candidates : List Ranked := filtered.map (fun c => ⟨c, 0, mzErrorPpm input_mz c⟩)
  let ranked :=
    if listTruthy spectrum_mz && listTruthy spectrum_int
        && decide (0 < (spectrum_mz.getD []).length) then
      let input_fp :=
        generate_fingerprint_vector (spectrum_mz.getD []) (spectrum_int.getD []) 50 1200 1
      let withSim := candidates.map (fun r =>
        { r with
            similarity :=
              match r.compound.fingerprint with
              | some fp => calculate_similarity input_fp fp
              | none => 0 })
      List.insertionSort specLe withSim
    else
      List.insertionSort massLe candidates
  ranked.take 10

/-- The record returned by `analyze_peak`. -/
structure AnalysisResult where
  predicted_class : String
  class_confidence : ℝ
  candidates : List Ranked
  is_unknown : Bool
  status_label : String

open scoped Classical in
/-- `detection.analyze_peak`: filter, rank, classify, tag unknown
(lines 137-212). -/
noncomputable def analyze_peak (library : List Compound) (input_mz : ℚ)
    (input_rt : Option ℚ) (spectrum_mz spectrum_int : Option (List ℚ))
    (mz_tolerance rt_margin : ℚ) : AnalysisResult :=
  let top_n := pipelineTopN library input_mz input_rt spectrum_mz spectrum_int
    mz_tolerance rt_margin
  let vote := predict_family_rule_based true top_n
  if listTruthy spectrum_mz then
    let best_sim := headSim top_n
    if best_sim < 0.8 then
      { predicted_class := if best_sim < 0.5 then "Unknown" else vote.1
        class_confidence := vote.2
        candidates := top_n
        is_unknown := true
        status_label := "Unknown Structure" }
    else
      { predicted_class := vote.1, class_confidence := vote.2, candidates := top_n,
        is_unknown := false, status_label := "Confirmed Match" }
  else if top_n.isEmpty then
    { predicted_class := vote.1, class_confidence := vote.2, candidates := top_n,
      is_unknown := true, status_label := "No Mass Match" }
  else
    { predicted_class := vote.1, class_confidence := vote.2, candidates := top_n,
      is_unknown := false, status_label := "Putative Mass Match" }

/-! ### The unknown-feature store: `utils/unknown_manager.py` -/

/-- One entry of a `candidates_snapshot` (and of the `candidates` payload
handed to `save_unknown_feature`). -/
structure SnapshotCand where
  pfas_id : String
  name : String
  similarity : ℚ

/-- A persisted unknown-feature record.  `datetime.now().isoformat()` is
nondeterministic, so the timestamp is an opaque string supplied by the caller. -/
structure UnknownRecord where
  id : String
  timestamp : String
  input_mz : Option ℚ
  input_rt : Option ℚ
  predicted_class : Option String
  similarity_score : ℚ
  status : String
  candidates_snapshot : List SnapshotCand

/-- The `feature_data` dict: `.get` on a missing key yields `None`, so every
field the code reads is an `Option` (the candidate list, read with
`.get("candidates", [])`, keeps its default separately via `Option`). -/
structure FeatureData where
  mz : Option ℚ
  rt : Option ℚ
  predicted_class : Option String
  best_similarity : Option ℚ
  candidates : Option (List SnapshotCand)

/-- The state of the backing JSON file `data/unknown_pfas.json`. -/
inductive FileContent
  | missing
  | corrupt
  | stored (records : List UnknownRecord)

/-- `unknown_manager.load_unknowns_raw`: `[]` when the file does not exist,
`[]` when `json.load` raises, otherwise the parsed records. -/
def load_unknowns_raw : FileContent → List UnknownRecord
  | .missing => []
  | .corrupt => []
  | .stored records => records

/-- Python's `f"{idx:04d}"`: the decimal digits, left-padded with zeros to
width at least 4. -/
def pad4 (n : ℕ) : String :=
  let s := toString n
  if s.length < 4 then String.mk (List.replicate (4 - s.length) '0') ++ s else s

/-- `unknown_manager.save_unknown_feature`: load the whole collection, assign
`UNK_PFAS_{count+1:04d}`, append one record with status `"New"` and at most
the first 3 payload candidates, and write the collection back. -/
def save_unknown_feature (fs : FileContent) (feature_data : FeatureData)
    (now : String) : String × FileContent :=
  let unknowns := load_unknowns_raw fs
  let idx := unknowns.length + 1
  let new_id := "UNK_PFAS_" ++ pad4 idx
  let snapshot :=
    match feature_data.candidates with
    | none => []
    | some cs => if cs.isEmpty then [] else cs.take 3
  let record : UnknownRecord :=
    { id := new_id
      timestamp := now
      input_mz := feature_data.mz
      input_rt := feature_data.rt
      predicted_class := feature_data.predicted_class
      similarity_score := feature_data.best_similarity.getD 0
      status := "New"
      candidates_snapshot := snapshot }
  (new_id, .stored (unknowns ++ [record]))

/-! ### Helper lemmas -/

theorem foldl_max_div (c : ℚ) (hc : 0 < c) :
    ∀ (l : List ℚ) (a : ℚ),
      (l.map fun x => x / c).foldl max (a / c) = l.foldl max a / c := by
  intro l
  induction l with
  | nil => intro a; simp
  | cons b t ih =>
    intro a
    simp only [List.map_cons, List.foldl_cons, max_div_div_right hc.le]
    exact ih (max a b)

theorem pythMax_map_div (c : ℚ) (hc : 0 < c) (v : List ℚ) :
    pythMax (v.map fun x => x / c) = pythMax v / c := by
  cases v with
  | nil => simp [pythMax]
  | cons x xs => simpa [pythMax] using foldl_max_div c hc xs x

theorem foldl_max_le {b : ℚ} :
    ∀ (l : List ℚ) (a : ℚ), a ≤ b → (∀ x ∈ l, x ≤ b) → l.foldl max a ≤ b := by
  intro l
  induction l with
  | nil => intro a ha _; simpa using ha
  | cons x t ih =>
    intro a ha hl
    simp only [List.foldl_cons]
    exact ih (max a x) (max_le ha (hl x (List.mem_cons_self x t)))
      (fun y hy => hl y (List.mem_cons_of_mem x hy))

theorem dotProd_self_nonneg : ∀ v : List ℚ, 0 ≤ dotProd v v := by
  intro v
  induction v with
  | nil => simp [dotProd]
  | cons x t ih =>
    simpa [dotProd] using add_nonneg (mul_self_nonneg x) ih

theorem dotProd_self_eq_zero : ∀ v : List ℚ, (dotProd v v = 0 ↔ ∀ x ∈ v, x = 0) := by
  intro v
  induction v with
  | nil => simp [dotProd]
  | cons x t ih =>
    show x * x + dotProd t t = 0 ↔ _
    rw [add_eq_zero_iff_of_nonneg (mul_self_nonneg x) (dotProd_self_nonneg t),
      mul_self_eq_zero, ih]
    simp

theorem sumSq_nonneg (v : List ℚ) : 0 ≤ sumSq v := dotProd_self_nonneg v

theorem sumSq_eq_zero_iff (v : List ℚ) : sumSq v = 0 ↔ ∀ x ∈ v, x = 0 :=
  dotProd_self_eq_zero v

theorem pyNorm_eq_zero_iff (v : List ℚ) : pyNorm v = 0 ↔ sumSq v = 0 := by
  unfold pyNorm
  rw [Real.sqrt_eq_zero']
  constructor
  · intro h
    exact_mod_cast le_antisymm (by exact_mod_cast h) (sumSq_nonneg v)
  · intro h
    rw [h]
    simp

theorem pyNorm_pos (v : List ℚ) (h : 0 < sumSq v) : 0 < pyNorm v := by
  unfold pyNorm
  exact Real.sqrt_pos.mpr (by exact_mod_cast h)

theorem digitize_eq (mn mx bs x : ℚ) (hbs : 0 < bs) (hx : mn ≤ x) :
    digitize mn mx bs x
      = min (numEdges mn mx bs) (⌊(x - mn) / bs⌋.toNat + 1) := by
  have hq : (0:ℚ) ≤ (x - mn) / bs := div_nonneg (sub_nonneg.mpr hx) hbs.le
  have hfl : (0:ℤ) ≤ ⌊(x - mn) / bs⌋ := Int.floor_nonneg.mpr hq
  have key : ∀ i : ℕ, (binEdge mn bs i ≤ x ↔ i ≤ ⌊(x - mn) / bs⌋.toNat) := by
    intro i
    unfold binEdge
    rw [← le_sub_iff_add_le', ← le_div_iff₀ hbs,
      show ((i:ℚ)) = ((i:ℤ):ℚ) by push_cast; ring, ← Int.le_floor, Int.le_toNat hfl]
  unfold digitize
  have hset : (Finset.range (numEdges mn mx bs)).filter
        (fun i => binEdge mn bs i ≤ x)
      = Finset.range
          (min (numEdges mn mx bs) (⌊(x - mn) / bs⌋.toNat + 1)) := by
    ext k
    simp only [Finset.mem_filter, Finset.mem_range, key, lt_min_iff]
    omega
  rw [hset, Finset.card_range]

theorem binLoop_length (mn mx bs : ℚ) :
    ∀ (l : List (ℚ × ℚ)) (acc : List ℚ),
      (binLoop mn mx bs l acc).length = acc.length := by
  intro l
  induction l with
  | nil => intro acc; rfl
  | cons p rest ih =>
    intro acc
    simp only [binLoop]
    split
    · rw [ih, List.length_set]
    · rw [ih]

theorem getD_replicate (n i : ℕ) : (List.replicate n (0:ℚ)).getD i 0 = 0 := by
  induction n generalizing i with
  | zero => rfl
  | succ n ih =>
    rw [List.replicate_succ]
    cases i with
    | zero => rfl
    | succ i => rw [List.getD_cons_succ]; exact ih i

theorem getD_set_self (l : List ℚ) (i : ℕ) (v : ℚ) (h : i < l.length) :
    (l.set i v).getD i 0 = v := by
  induction l generalizing i with
  | nil => exact absurd h (by simp)
  | cons a t ih =>
    cases i with
    | zero => rfl
    | succ i =>
      show (t.set i v).getD i 0 = v
      exact ih i (by simpa using h)

theorem getD_set_ne (l : List ℚ) (i j : ℕ) (v : ℚ) (h : i ≠ j) :
    (l.set i v).getD j 0 = l.getD j 0 := by
  induction l generalizing i j with
  | nil => rfl
  | cons a t ih =>
    cases i with
    | zero =>
      cases j with
      | zero => exact absurd rfl h
      | succ j => rfl
    | succ i =>
      cases j with
      | zero => rfl
      | succ j =>
        show (t.set i v).getD j 0 = t.getD j 0
        exact ih i j (fun he => h (by rw [he]))

theorem binLoop_getD (mn mx bs : ℚ) :
    ∀ (l : List (ℚ × ℚ)) (acc : List ℚ) (i : ℕ), i < acc.length →
      (binLoop mn mx bs l acc).getD i 0
        = acc.getD i 0 +
          ((l.filter (fun p =>
            decide (0 < digitize mn mx bs p.1 ∧
              digitize mn mx bs p.1 < numEdges mn mx bs ∧
              digitize mn mx bs p.1 - 1 = i))).map Prod.snd).sum := by
  intro l
  induction l with
  | nil => intro acc i _; simp [binLoop]
  | cons p rest ih =>
    intro acc i hi
    simp only [binLoop]
    by_cases hc : 0 < digitize mn mx bs p.1 ∧
        digitize mn mx bs p.1 < numEdges mn mx bs
    · rw [if_pos hc]
      rw [ih _ i (by rw [List.length_set]; exact hi)]
      by_cases hd : digitize mn mx bs p.1 - 1 = i
      · subst hd
        have hfe : (p :: rest).filter (fun q =>
              decide (0 < digitize mn mx bs q.1 ∧
                digitize mn mx bs q.1 < numEdges mn mx bs ∧
                digitize mn mx bs q.1 - 1 = digitize mn mx bs p.1 - 1))
            = p :: rest.filter (fun q =>
              decide (0 < digitize mn mx bs q.1 ∧
                digitize mn mx bs q.1 < numEdges mn mx bs ∧
                digitize mn mx bs q.1 - 1 = digitize mn mx bs p.1 - 1)) :=
          List.filter_cons_of_pos (decide_eq_true ⟨hc.1, hc.2, rfl⟩)
        rw [getD_set_self _ _ _ hi, hfe, List.map_cons, List.sum_cons]
        ring
      · have hfe : (p :: rest).filter (fun q =>
              decide (0 < digitize mn mx bs q.1 ∧
                digitize mn mx bs q.1 < numEdges mn mx bs ∧
                digitize mn mx bs q.1 - 1 = i))
            = rest.filter (fun q =>
              decide (0 < digitize mn mx bs q.1 ∧
                digitize mn mx bs q.1 < numEdges mn mx bs ∧
                digitize mn mx bs q.1 - 1 = i)) :=
          List.filter_cons_of_neg
            (fun habs => hd (of_decide_eq_true habs).2.2)
        rw [getD_set_ne _ _ _ _ hd, hfe]
    · rw [if_neg hc]
      have hfe : (p :: rest).filter (fun q =>
            decide (0 < digitize mn mx bs q.1 ∧
              digitize mn mx bs q.1 < numEdges mn mx bs ∧
              digitize mn mx bs q.1 - 1 = i))
          = rest.filter (fun q =>
            decide (0 < digitize mn mx bs q.1 ∧
              digitize mn mx bs q.1 < numEdges mn mx bs ∧
              digitize mn mx bs q.1 - 1 = i)) :=
        List.filter_cons_of_neg
          (fun habs => hc ⟨(of_decide_eq_true habs).1, (of_decide_eq_true habs).2.1⟩)
      rw [ih acc i hi, hfe]

theorem pipelineTopN_massMode (L : List Compound) (mz : ℚ) (rt : Option ℚ)
    (smz sint : Option (List ℚ)) (tol mar : ℚ)
    (h : (listTruthy smz && listTruthy sint
        && decide (0 < (smz.getD []).length)) = false) :
    pipelineTopN L mz rt smz sint tol mar
      = (List.insertionSort massLe
          ((filter_candidates_fast L mz rt tol mar).map
            (fun c => ⟨c, 0, mzErrorPpm mz c⟩))).take 10 := by
  simp only [pipelineTopN]
  rw [if_neg (by rw [h]; exact Bool.false_ne_true)]

theorem analyze_peak_spec_low (L : List Compound) (mz : ℚ) (rt : Option ℚ)
    (smz sint : Option (List ℚ)) (tol mar : ℚ)
    (h : listTruthy smz = true)
    (hlow : headSim (pipelineTopN L mz rt smz sint tol mar) < 0.8) :
    analyze_peak L mz rt smz sint tol mar =
      { predicted_class :=
          if headSim (pipelineTopN L mz rt smz sint tol mar) < 0.5 then "Unknown"
          else (predict_family_rule_based true (pipelineTopN L mz rt smz sint tol mar)).1
        class_confidence :=
          (predict_family_rule_based true (pipelineTopN L mz rt smz sint tol mar)).2
        candidates := pipelineTopN L mz rt smz sint tol mar
        is_unknown := true
        status_label := "Unknown Structure" } := by
  simp only [analyze_peak]
  rw [if_pos h, if_pos hlow]

theorem analyze_peak_spec_high (L : List Compound) (mz : ℚ) (rt : Option ℚ)
    (smz sint : Option (List ℚ)) (tol mar : ℚ)
    (h : listTruthy smz = true)
    (hhigh : ¬ headSim (pipelineTopN L mz rt smz sint tol mar) < 0.8) :
    analyze_peak L mz rt smz sint tol mar =
      { predicted_class :=
          (predict_family_rule_based true (pipelineTopN L mz rt smz sint tol mar)).1
        class_confidence :=
          (predict_family_rule_based true (pipelineTopN L mz rt smz sint tol mar)).2
        candidates := pipelineTopN L mz rt smz sint tol mar
        is_unknown := false
        status_label := "Confirmed Match" } := by
  simp only [analyze_peak]
  rw [if_pos h, if_neg hhigh]

theorem analyze_peak_nospec_empty (L : List Compound) (mz : ℚ) (rt : Option ℚ)
    (smz sint : Option (List ℚ)) (tol mar : ℚ)
    (h : listTruthy smz = false)
    (he : (pipelineTopN L mz rt smz sint tol mar).isEmpty = true) :
    analyze_peak L mz rt smz sint tol mar =
      { predicted_class :=
          (predict_family_rule_based true (pipelineTopN L mz rt smz sint tol mar)).1
        class_confidence :=
          (predict_family_rule_based true (pipelineTopN L mz rt smz sint tol mar)).2
        candidates := pipelineTopN L mz rt smz sint tol mar
        is_unknown := true
        status_label := "No Mass Match" } := by
  simp only [analyze_peak]
  rw [if_neg (by rw [h]; exact Bool.false_ne_true), if_pos he]

theorem analyze_peak_nospec_nonempty (L : List Compound) (mz : ℚ) (rt : Option ℚ)
    (smz sint : Option (List ℚ)) (tol mar : ℚ)
    (h : listTruthy smz = false)
    (he : ¬ (pipelineTopN L mz rt smz sint tol mar).isEmpty = true) :
    analyze_peak L mz rt smz sint tol mar =
      { predicted_class :=
          (predict_family_rule_based true (pipelineTopN L mz rt smz sint tol mar)).1
        class_confidence :=
          (predict_family_rule_based true (pipelineTopN L mz rt smz sint tol mar)).2
        candidates := pipelineTopN L mz rt smz sint tol mar
        is_unknown := false
        status_label := "Putative Mass Match" } := by
  simp only [analyze_peak]
  rw [if_neg (by rw [h]; exact Bool.false_ne_true), if_neg he]

/-- The mass-only outcome of `analyze_peak` verified by claim C4. -/
def massOnlyOutcome (L : List Compound) (mz : ℚ) (rt : Option ℚ) (tol mar : ℚ)
    (r : AnalysisResult) : Prop :=
  (r.candidates = [] ↔ filter_candidates_fast L mz rt tol mar = []) ∧
  (r.candidates = [] → r.is_unknown = true ∧ r.status_label = "No Mass Match") ∧
  (r.candidates ≠ [] → r.is_unknown = false ∧ r.status_label = "Putative Mass Match") ∧
  r.status_label ≠ "Confirmed Match"

theorem no_spectrum_outcome (L : List Compound) (mz : ℚ) (rt : Option ℚ)
    (smz sint : Option (List ℚ)) (tol mar : ℚ) (h : listTruthy smz = false) :
    massOnlyOutcome L mz rt tol mar (analyze_peak L mz rt smz sint tol mar) := by
  have hmass := pipelineTopN_massMode L mz rt smz sint tol mar (by rw [h]; rfl)
  have hiff : pipelineTopN L mz rt smz sint tol mar = []
      ↔ filter_candidates_fast L mz rt tol mar = [] := by
    rw [hmass]
    rw [← List.length_eq_zero, ← List.length_eq_zero]
    rw [List.length_take,
      (List.perm_insertionSort massLe
        ((filter_candidates_fast L mz rt tol mar).map
          (fun c => ⟨c, 0, mzErrorPpm mz c⟩))).length_eq,
      List.length_map]
    omega
  by_cases he : (pipelineTopN L mz rt smz sint tol mar).isEmpty = true
  · rw [analyze_peak_nospec_empty L mz rt smz sint tol mar h he]
    rw [List.isEmpty_iff] at he
    exact ⟨by simpa [he] using hiff, fun _ => ⟨rfl, rfl⟩,
      fun hne => absurd he hne, by simp⟩
  · rw [analyze_peak_nospec_nonempty L mz rt smz sint tol mar h he]
    rw [List.isEmpty_iff] at he
    exact ⟨by simpa [he] using hiff, fun hx => absurd hx he,
      fun _ => ⟨rfl, rfl⟩, by simp⟩

/-- C4: a query without a fragment spectrum yields status `No Mass Match`
with `is_unknown = true` exactly when the candidate set is empty, and
`Putative Mass Match` with `is_unknown = false` otherwise; it can never yield
`Confirmed Match`.  Both spectrum-less encodings (`None` and the empty list)
are covered. -/
theorem analyze_peak_no_spectrum_status (L : List Compound) (mz : ℚ)
    (rt : Option ℚ) (sint : Option (List ℚ)) (tol mar : ℚ) :
    massOnlyOutcome L mz rt tol mar (analyze_peak L mz rt none sint tol mar) ∧
    massOnlyOutcome L mz rt tol mar (analyze_peak L mz rt (some []) sint tol mar) :=
  ⟨no_spectrum_outcome L mz rt none sint tol mar rfl,
   no_spectrum_outcome L mz rt (some []) sint tol mar rfl⟩

/-- C2: in spectrum mode, with `bestSimilarity` the top-ranked candidate's
similarity (0.0 with no candidates): below 0.8 the result is unknown with
status `Unknown Structure`, below 0.5 the predicted family is additionally
overridden to `"Unknown"`, between 0.5 and 0.8 the voted family is kept, and
at or above 0.8 the status is `Confirmed Match` and the result not unknown. -/
theorem analyze_peak_spectrum_thresholds (L : List Compound) (mz : ℚ)
    (rt : Option ℚ) (m j : ℚ) (ms js : List ℚ) (tol mar : ℚ) :
    (headSim (analyze_peak L mz rt (some (m :: ms)) (some (j :: js)) tol mar).candidates < 0.8 →
      (analyze_peak L mz rt (some (m :: ms)) (some (j :: js)) tol mar).is_unknown = true ∧
      (analyze_peak L mz rt (some (m :: ms)) (some (j :: js)) tol mar).status_label
        = "Unknown Structure") ∧
    (headSim (analyze_peak L mz rt (some (m :: ms)) (some (j :: js)) tol mar).candidates < 0.5 →
      (analyze_peak L mz rt (some (m :: ms)) (some (j :: js)) tol mar).predicted_class
        = "Unknown") ∧
    (0.5 ≤ headSim (analyze_peak L mz rt (some (m :: ms)) (some (j :: js)) tol mar).candidates →
      headSim (analyze_peak L mz rt (some (m :: ms)) (some (j :: js)) tol mar).candidates < 0.8 →
      (analyze_peak L mz rt (some (m :: ms)) (some (j :: js)) tol mar).predicted_class
        = (predict_family_rule_based true
            (analyze_peak L mz rt (some (m :: ms)) (some (j :: js)) tol mar).candidates).1) ∧
    (0.8 ≤ headSim (analyze_peak L mz rt (some (m :: ms)) (some (j :: js)) tol mar).candidates →
      (analyze_peak L mz rt (some (m :: ms)) (some (j :: js)) tol mar).is_unknown = false ∧
      (analyze_peak L mz rt (some (m :: ms)) (some (j :: js)) tol mar).status_label
        = "Confirmed Match") := by
  by_cases hb : headSim (pipelineTopN L mz rt (some (m :: ms)) (some (j :: js)) tol mar) < 0.8
  · rw [analyze_peak_spec_low L mz rt (some (m :: ms)) (some (j :: js)) tol mar rfl hb]
    refine ⟨fun _ => ⟨rfl, rfl⟩, fun hc => ?_, fun hc1 _ => ?_, fun hc => ?_⟩
    · exact if_pos hc
    · exact if_neg (not_lt.mpr hc1)
    · exact absurd hb (not_lt.mpr hc)
  · rw [analyze_peak_spec_high L mz rt (some (m :: ms)) (some (j :: js)) tol mar rfl hb]
    have h58 : ¬ headSim (pipelineTopN L mz rt (some (m :: ms)) (some (j :: js)) tol mar) < 0.5 := by
      intro hx
      exact hb (lt_trans hx (by norm_num))
    exact ⟨fun hc => absurd hc hb, fun hc => absurd hc h58,
      fun _ hc2 => absurd hc2 hb, fun _ => ⟨rfl, rfl⟩⟩

/-- The outcome of `analyze_peak` verified by claim C10: a non-empty fragment
mass list with a missing or empty intensity list is ranked as if no spectrum
were supplied but tagged as if one were. -/
def degenerateSpectrumOutcome (r : AnalysisResult) : Prop :=
  r.is_unknown = true ∧ r.status_label = "Unknown Structure" ∧
  r.predicted_class = "Unknown" ∧ (∀ c ∈ r.candidates, c.similarity = 0) ∧
  r.candidates.Pairwise massLe

theorem degenerate_spectrum_outcome (L : List Compound) (mz : ℚ) (rt : Option ℚ)
    (smz sint : Option (List ℚ)) (tol mar : ℚ)
    (h1 : listTruthy smz = true) (h2 : listTruthy sint = false) :
    degenerateSpectrumOutcome (analyze_peak L mz rt smz sint tol mar) := by
  have hmass := pipelineTopN_massMode L mz rt smz sint tol mar
    (by rw [h2]; simp)
  have hsims : ∀ c ∈ pipelineTopN L mz rt smz sint tol mar, c.similarity = 0 := by
    intro c hc
    rw [hmass] at hc
    have hc2 := (List.perm_insertionSort massLe
      ((filter_candidates_fast L mz rt tol mar).map
        (fun c => ⟨c, 0, mzErrorPpm mz c⟩))).mem_iff.mp
      (List.take_subset _ _ hc)
    obtain ⟨a, _, rfl⟩ := List.mem_map.mp hc2
    rfl
  have hzero : headSim (pipelineTopN L mz rt smz sint tol mar) = 0 := by
    cases hT : pipelineTopN L mz rt smz sint tol mar with
    | nil => rfl
    | cons a t =>
      show a.similarity = 0
      exact hsims a (hT ▸ List.mem_cons_self a t)
  have hlow : headSim (pipelineTopN L mz rt smz sint tol mar) < 0.8 := by
    rw [hzero]; norm_num
  rw [analyze_peak_spec_low L mz rt smz sint tol mar h1 hlow]
  refine ⟨rfl, rfl, ?_, hsims, ?_⟩
  · exact if_pos (by rw [hzero]; norm_num)
  · rw [hmass]
    exact (List.sorted_insertionSort massLe _).sublist (List.take_sublist _ _)

/-- C10: a query whose fragment mass list is non-empty but whose intensity
list is `None` or empty is ranked in mass-error-only mode (every similarity
stays 0.0 and the returned candidates are ordered by ascending mass error)
while the tagging stage still treats it as a spectrum query, so the result is
always unknown with status `Unknown Structure` and predicted family
`"Unknown"`, even when a candidate matches the query mass exactly. -/
theorem analyze_peak_degenerate_spectrum (L : List Compound) (mz : ℚ)
    (rt : Option ℚ) (m : ℚ) (ms : List ℚ) (tol mar : ℚ) :
    degenerateSpectrumOutcome (analyze_peak L mz rt (some (m :: ms)) none tol mar) ∧
    degenerateSpectrumOutcome (analyze_peak L mz rt (some (m :: ms)) (some []) tol mar) :=
  ⟨degenerate_spectrum_outcome L mz rt (some (m :: ms)) none tol mar rfl rfl,
   degenerate_spectrum_outcome L mz rt (some (m :: ms)) (some []) tol mar rfl rfl⟩

/-! ### Claim theorems -/

/-- C6: binning sums, per bin, the intensities of exactly the pairs whose mass
lies in `[mz_min, mz_max]` and whose bin index `⌊(mass - mz_min)/bin_size⌋`
equals that bin; out-of-range pairs contribute nothing, the output always has
the expected bin count, and when no pair is in range the result is the all-zero
vector of that length (never an error). -/
theorem bin_spectrum_fingerprint_spec (pairs : List (ℚ × ℚ)) (mn mx bs : ℚ)
    (hbs : 0 < bs) :
    (bin_spectrum_fingerprint (pairs.map Prod.fst) (pairs.map Prod.snd) mn mx bs).length
      = numEdges mn mx bs - 1 ∧
    (∀ i, i < numEdges mn mx bs - 1 →
      (bin_spectrum_fingerprint (pairs.map Prod.fst) (pairs.map Prod.snd) mn mx bs).getD i 0
        = ((pairs.filter (fun p =>
            decide (mn ≤ p.1 ∧ p.1 ≤ mx ∧ ⌊(p.1 - mn) / bs⌋ = (i : ℤ)))).map
            Prod.snd).sum) ∧
    ((∀ p ∈ pairs, p.1 < mn ∨ mx < p.1) →
      bin_spectrum_fingerprint (pairs.map Prod.fst) (pairs.map Prod.snd) mn mx bs
        = List.replicate (numEdges mn mx bs - 1) 0) := by
  have hzip : (pairs.map Prod.fst).zip (pairs.map Prod.snd) = pairs := by
    rw [List.zip_map']
    simp
  simp only [bin_spectrum_fingerprint, hzip]
  refine ⟨?_, ?_, ?_⟩
  · by_cases hce : (pairs.filter
        (fun p => decide (mn ≤ p.1) && decide (p.1 ≤ mx))).isEmpty = true
    · rw [if_pos hce, List.length_replicate]
    · rw [if_neg hce, binLoop_length, List.length_replicate]
  · intro i hi
    by_cases hce : (pairs.filter
        (fun p => decide (mn ≤ p.1) && decide (p.1 ≤ mx))).isEmpty = true
    · rw [if_pos hce, getD_replicate]
      have hnil := List.isEmpty_iff.mp hce
      rw [List.filter_eq_nil_iff] at hnil
      have hnil2 : pairs.filter (fun p =>
          decide (mn ≤ p.1 ∧ p.1 ≤ mx ∧ ⌊(p.1 - mn) / bs⌋ = (i : ℤ))) = [] := by
        rw [List.filter_eq_nil_iff]
        intro a ha hcond
        obtain ⟨h1, h2, _⟩ := of_decide_eq_true hcond
        exact hnil a ha (by rw [decide_eq_true h1, decide_eq_true h2]; rfl)
      rw [hnil2]
      rfl
    · rw [if_neg hce]
      have hi2 : i < (List.replicate (numEdges mn mx bs - 1) (0:ℚ)).length := by
        rw [List.length_replicate]
        exact hi
      rw [binLoop_getD mn mx bs _ _ i hi2, getD_replicate, zero_add]
      have hff : (pairs.filter
            (fun p => decide (mn ≤ p.1) && decide (p.1 ≤ mx))).filter
            (fun q => decide (0 < digitize mn mx bs q.1 ∧
              digitize mn mx bs q.1 < numEdges mn mx bs ∧
              digitize mn mx bs q.1 - 1 = i))
          = pairs.filter (fun p =>
              decide (mn ≤ p.1 ∧ p.1 ≤ mx ∧ ⌊(p.1 - mn) / bs⌋ = (i : ℤ))) := by
        rw [List.filter_filter]
        apply List.filter_congr
        intro a _
        by_cases h1 : mn ≤ a.1
        · by_cases h2 : a.1 ≤ mx
          · have hdeq := digitize_eq mn mx bs a.1 hbs h1
            have hfl : (0:ℤ) ≤ ⌊(a.1 - mn) / bs⌋ :=
              Int.floor_nonneg.mpr (div_nonneg (sub_nonneg.mpr h1) hbs.le)
            have hchar : (0 < digitize mn mx bs a.1 ∧
                digitize mn mx bs a.1 < numEdges mn mx bs ∧
                digitize mn mx bs a.1 - 1 = i)
                ↔ ⌊(a.1 - mn) / bs⌋ = (i : ℤ) := by
              omega
            rw [decide_eq_true h1, decide_eq_true h2]
            simp only [Bool.and_true]
            rw [decide_eq_decide]
            constructor
            · intro hg
              exact ⟨h1, h2, hchar.mp hg⟩
            · rintro ⟨-, -, hf⟩
              exact hchar.mpr hf
          · simp [h2]
        · simp [h1]
      rw [hff]
  · intro hout
    have hnil : pairs.filter
        (fun p => decide (mn ≤ p.1) && decide (p.1 ≤ mx)) = [] := by
      rw [List.filter_eq_nil_iff]
      intro a ha hcond
      rw [Bool.and_eq_true] at hcond
      obtain ⟨hc1, hc2⟩ := hcond
      rcases hout a ha with h | h
      · exact absurd (of_decide_eq_true hc1) (not_le.mpr h)
      · exact absurd (of_decide_eq_true hc2) (not_le.mpr h)
    rw [if_pos (by rw [hnil]; rfl)]

theorem analyze_peak_candidates (L : List Compound) (mz : ℚ) (rt : Option ℚ)
    (smz sint : Option (List ℚ)) (tol mar : ℚ) :
    (analyze_peak L mz rt smz sint tol mar).candidates
      = pipelineTopN L mz rt smz sint tol mar := by
  simp only [analyze_peak]
  split
  · split <;> rfl
  · split <;> rfl

/-- C1 (code bug): on a spectrum-less query with a non-empty candidate set the
pipeline never reaches the count-based family vote, because `analyze_peak`
always creates the `similarity` column (line 156), so
`predict_family_rule_based` takes the similarity-weighted branch, finds a zero
total and returns `("Unknown", 0.0)`.  Concretely: one candidate of family
`"PFCA (Carboxylic Acids)"` matching the query mass exactly yields predicted
family `"Unknown"` with confidence 0, although the count-based branch the
claim (and the code's own comment) describes would return that family with
confidence 1. -/
theorem predict_family_pipeline_vote_bug :
    (analyze_peak [⟨400, none, "PFCA (Carboxylic Acids)", none⟩]
        400 none none none 10 (1/2)).predicted_class = "Unknown" ∧
    (analyze_peak [⟨400, none, "PFCA (Carboxylic Acids)", none⟩]
        400 none none none 10 (1/2)).class_confidence = 0 ∧
    (analyze_peak [⟨400, none, "PFCA (Carboxylic Acids)", none⟩]
        400 none none none 10 (1/2)).status_label = "Putative Mass Match" ∧
    (analyze_peak [⟨400, none, "PFCA (Carboxylic Acids)", none⟩]
        400 none none none 10 (1/2)).candidates ≠ [] ∧
    predict_family_rule_based false
      (analyze_peak [⟨400, none, "PFCA (Carboxylic Acids)", none⟩]
        400 none none none 10 (1/2)).candidates
      = ("PFCA (Carboxylic Acids)", 1) := by
  have hfil : filter_candidates_fast [⟨400, none, "PFCA (Carboxylic Acids)", none⟩]
      400 none 10 (1/2) = [⟨400, none, "PFCA (Carboxylic Acids)", none⟩] := by
    norm_num [filter_candidates_fast]
  have hT : pipelineTopN [⟨400, none, "PFCA (Carboxylic Acids)", none⟩]
      400 none none none 10 (1/2)
      = [⟨⟨400, none, "PFCA (Carboxylic Acids)", none⟩, 0, 0⟩] := by
    rw [pipelineTopN_massMode [⟨400, none, "PFCA (Carboxylic Acids)", none⟩]
      400 none none none 10 (1/2) rfl, hfil]
    norm_num [mzErrorPpm]
  have hvote : predict_family_rule_based true
      [(⟨⟨400, none, "PFCA (Carboxylic Acids)", none⟩, 0, 0⟩ : Ranked)]
      = ("Unknown", 0) := by
    norm_num [predict_family_rule_based]
  have hres := analyze_peak_nospec_nonempty
    [⟨400, none, "PFCA (Carboxylic Acids)", none⟩] 400 none none none 10 (1/2)
    rfl (by rw [hT]; simp)
  rw [hT, hvote] at hres
  rw [hres]
  refine ⟨rfl, rfl, rfl, by simp, ?_⟩
  norm_num [predict_family_rule_based, famList, famCount, idxmax]

/-- C9: `load_unknowns_raw` returns the empty sequence, rather than raising,
both when the backing file is missing and when its contents fail to parse as
JSON (the `except` branch). -/
theorem load_unknowns_raw_missing_or_corrupt :
    load_unknowns_raw .missing = [] ∧ load_unknowns_raw .corrupt = [] :=
  ⟨rfl, rfl⟩

/-- C5: `save_unknown_feature` on a store holding `n` records assigns the id
`"UNK_PFAS_"` followed by `n + 1` zero-padded to 4 digits, appends exactly one
record with status `"New"` whose snapshot is the first at most 3 payload
candidates, and a subsequent load returns the old records followed by the new
one; in particular two successive saves on an initially empty store yield
`UNK_PFAS_0001` then `UNK_PFAS_0002` and a final load of exactly 2 records. -/
theorem save_unknown_feature_spec (fs : FileContent) (fd : FeatureData) (now : String) :
    (save_unknown_feature fs fd now).1
      = "UNK_PFAS_" ++ pad4 ((load_unknowns_raw fs).length + 1) ∧
    (∃ rec : UnknownRecord,
      load_unknowns_raw (save_unknown_feature fs fd now).2
          = load_unknowns_raw fs ++ [rec] ∧
      rec.id = (save_unknown_feature fs fd now).1 ∧
      rec.status = "New" ∧
      rec.candidates_snapshot = (fd.candidates.getD []).take 3 ∧
      rec.candidates_snapshot.length ≤ 3) ∧
    (save_unknown_feature .missing fd now).1 = "UNK_PFAS_0001" ∧
    (save_unknown_feature (save_unknown_feature .missing fd now).2 fd now).1
        = "UNK_PFAS_0002" ∧
    (load_unknowns_raw
        (save_unknown_feature (save_unknown_feature .missing fd now).2 fd now).2).length
      = 2 := by
  have hsnap : (match fd.candidates with
      | none => ([] : List SnapshotCand)
      | some cs => if cs.isEmpty then [] else cs.take 3)
      = (fd.candidates.getD []).take 3 := by
    cases fd.candidates with
    | none => rfl
    | some cs => cases cs <;> simp
  refine ⟨rfl, ?_, ?_, ?_, ?_⟩
  · refine ⟨_, rfl, rfl, rfl, hsnap, ?_⟩
    rw [hsnap]
    simp
  · rfl
  · show "UNK_PFAS_" ++
        pad4 ((load_unknowns_raw (save_unknown_feature .missing fd now).2).length + 1) = _
    norm_num [save_unknown_feature, load_unknowns_raw]
    rfl
  · rfl

/-- C3: the candidate filter keeps a library compound exactly when
`|precursor_mz - input_mz| ≤ precursor_mz * ppm * 1e-6` (tolerance relative to
the library mass) and, only when a retention time is supplied, its stored mean
retention time, if any, lies within `input_rt ± rt_margin`; an absent retention
time never excludes a compound. -/
theorem filter_candidates_fast_spec (library : List Compound) (input_mz : ℚ)
    (input_rt : Option ℚ) (mz_tolerance_ppm rt_margin : ℚ) (c : Compound) :
    c ∈ filter_candidates_fast library input_mz input_rt mz_tolerance_ppm rt_margin ↔
      c ∈ library ∧
      |c.precursor_mz - input_mz| ≤ c.precursor_mz * (mz_tolerance_ppm * (1e-6 : ℚ)) ∧
      ∀ rt, input_rt = some rt → ∀ v, c.rt_mean = some v →
        rt - rt_margin ≤ v ∧ v ≤ rt + rt_margin := by
  by_cases hempty : library.isEmpty
  · rw [List.isEmpty_iff] at hempty
    subst hempty
    simp [filter_candidates_fast]
  · cases input_rt with
    | none => simp [filter_candidates_fast, hempty, List.mem_filter]
    | some rt =>
      simp only [filter_candidates_fast, hempty, Bool.false_eq_true, if_false]
      by_cases hf : (library.filter (fun c =>
          decide (|c.precursor_mz - input_mz|
            ≤ c.precursor_mz * (mz_tolerance_ppm * (1e-6 : ℚ))))).isEmpty
      · rw [if_pos hf]
        rw [List.isEmpty_iff] at hf
        constructor
        · intro hc
          rw [hf] at hc
          exact absurd hc (List.not_mem_nil c)
        · rintro ⟨hc, hm, _⟩
          have : c ∈ library.filter (fun c =>
              decide (|c.precursor_mz - input_mz|
                ≤ c.precursor_mz * (mz_tolerance_ppm * (1e-6 : ℚ)))) :=
            List.mem_filter.mpr ⟨hc, by simpa using hm⟩
          rw [hf] at this
          exact absurd this (List.not_mem_nil c)
      · rw [if_neg hf]
        rw [List.mem_filter, List.mem_filter]
        constructor
        · rintro ⟨⟨hc, hm⟩, hrt⟩
          refine ⟨hc, by simpa using hm, ?_⟩
          rintro rt2 hrt2 v hv
          rw [Option.some.injEq] at hrt2
          subst hrt2
          rw [hv] at hrt
          simpa using hrt
        · rintro ⟨hc, hm, hrt⟩
          refine ⟨⟨hc, by simpa using hm⟩, ?_⟩
          cases hvm : c.rt_mean with
          | none => simp
          | some v =>
            have := hrt rt rfl v hvm
            simpa using this

/-- C7: the normalization step divides every element by the vector's maximum,
so a vector with positive maximum normalizes to maximum exactly 1.0, and an
all-zero vector is returned unchanged. -/
theorem normalizeMax_spec (v : List ℚ) :
    (0 < pythMax v →
      normalizeMax v = v.map (fun x => x / pythMax v) ∧
      pythMax (normalizeMax v) = 1) ∧
    ((∀ x ∈ v, x = 0) → normalizeMax v = v) := by
  constructor
  · intro h
    have h1 : normalizeMax v = v.map (fun x => x / pythMax v) := if_pos h
    refine ⟨h1, ?_⟩
    rw [h1, pythMax_map_div _ h, div_self (ne_of_gt h)]
  · intro hz
    have hle : pythMax v ≤ 0 := by
      cases v with
      | nil => exact le_refl 0
      | cons x xs =>
        exact foldl_max_le xs x (le_of_eq (hz x (List.mem_cons_self x xs)))
          (fun y hy => le_of_eq (hz y (List.mem_cons_of_mem x hy)))
    exact if_neg (not_lt.mpr hle)

/-- C8: cosine similarity of a nonzero vector with itself is exactly 1.0, and
whenever either argument has zero norm (in particular against an all-zero
vector) the similarity is 0.0: the zero-norm case is guarded, so no division
by zero (hence no NaN and no error) occurs. -/
theorem calculate_similarity_spec (v w : List ℚ) :
    ((∃ x ∈ v, x ≠ 0) → calculate_similarity v v = 1) ∧
    (pyNorm v = 0 ∨ pyNorm w = 0 → calculate_similarity v w = 0) := by
  constructor
  · rintro ⟨x, hx, hx0⟩
    have hv : v.length ≠ 0 := by
      cases v with
      | nil => exact absurd hx (List.not_mem_nil x)
      | cons a t => simp
    have hS : 0 < sumSq v :=
      lt_of_le_of_ne (sumSq_nonneg v)
        (fun h => hx0 ((sumSq_eq_zero_iff v).mp h.symm x hx))
    have hnorm : 0 < pyNorm v := pyNorm_pos v hS
    unfold calculate_similarity
    rw [if_neg (by simp [hv])]
    simp only [min_self, List.take_length]
    rw [if_neg (by rw [not_or]; exact ⟨ne_of_gt hnorm, ne_of_gt hnorm⟩)]
    have hsq : pyNorm v * pyNorm v = ((sumSq v : ℚ) : ℝ) :=
      Real.mul_self_sqrt (by exact_mod_cast sumSq_nonneg v)
    rw [hsq]
    exact div_self (by exact_mod_cast ne_of_gt hS)
  · intro h0
    unfold calculate_similarity
    by_cases hl : v.length = 0 ∨ w.length = 0
    · rw [if_pos hl]
    · rw [if_neg hl]
      have key : ∀ u : List ℚ, pyNorm u = 0 → ∀ n, pyNorm (u.take n) = 0 := by
        intro u hu n
        rw [pyNorm_eq_zero_iff] at hu ⊢
        rw [sumSq_eq_zero_iff] at hu ⊢
        exact fun y hy => hu y (List.take_subset n u hy)
      rw [if_pos ?_]
      rcases h0 with h | h
      · exact Or.inl (key v h _)
      · exact Or.inr (key w h _)

/-! ### Witnesses -/

/-- Witness for C6 at a concrete input: grid 50–52 with width 1 (2 bins), and
pairs (50.5, 2), (50.7, 3), (49, 9): bin 0 collects 2 + 3 = 5 and the
out-of-range pair contributes nothing. -/
theorem bin_spectrum_fingerprint_spec_witness :
    (0:ℚ) < 1 ∧
    (bin_spectrum_fingerprint
        ([((50.5:ℚ), (2:ℚ)), (50.7, 3), (49, 9)].map Prod.fst)
        ([((50.5:ℚ), (2:ℚ)), (50.7, 3), (49, 9)].map Prod.snd) 50 52 1).getD 0 0
      = 5 := by
  have h3 : numEdges 50 52 1 = 3 := by
    norm_num [numEdges]
    rfl
  have h := (bin_spectrum_fingerprint_spec
    [((50.5:ℚ), (2:ℚ)), (50.7, 3), (49, 9)] 50 52 1 (by norm_num)).2.1 0
    (by rw [h3]; norm_num)
  refine ⟨by norm_num, ?_⟩
  rw [h]
  norm_num [List.filter_cons]

/-- Witness for C2 at a concrete input: a query with spectrum but no library
match has best similarity 0.0 < 0.8 and is tagged an unknown structure. -/
theorem analyze_peak_spectrum_thresholds_witness :
    (analyze_peak [] 100 none (some [(100:ℚ)]) (some [(5:ℚ)]) 5 (1/2)).is_unknown = true ∧
    (analyze_peak [] 100 none (some [(100:ℚ)]) (some [(5:ℚ)]) 5 (1/2)).status_label
      = "Unknown Structure" := by
  have hT : pipelineTopN [] 100 none (some [(100:ℚ)]) (some [(5:ℚ)]) 5 (1/2) = [] := by
    simp [pipelineTopN, filter_candidates_fast]
  have hb : headSim
      (analyze_peak [] 100 none (some [(100:ℚ)]) (some [(5:ℚ)]) 5 (1/2)).candidates
      < 0.8 := by
    rw [analyze_peak_candidates, hT]
    norm_num [headSim]
  exact (analyze_peak_spectrum_thresholds [] 100 none 100 5 [] [] 5 (1/2)).1 hb

/-- Witness for C7 at concrete inputs: `[1, 2]` normalizes to maximum 1, and
the all-zero vector `[0, 0]` is returned unchanged. -/
theorem normalizeMax_spec_witness :
    (normalizeMax [(1:ℚ), 2] = [(1:ℚ), 2].map (fun x => x / pythMax [(1:ℚ), 2]) ∧
      pythMax (normalizeMax [(1:ℚ), 2]) = 1) ∧
    normalizeMax [(0:ℚ), 0] = [(0:ℚ), 0] :=
  ⟨(normalizeMax_spec [(1:ℚ), 2]).1 (by decide),
   (normalizeMax_spec [(0:ℚ), 0]).2 (by decide)⟩

/-- Witness for C8 at concrete inputs: self-similarity of the nonzero vector
`[1]` is 1, and similarity against the zero-norm vector `[0]` is 0. -/
theorem calculate_similarity_spec_witness :
    calculate_similarity [(1:ℚ)] [(1:ℚ)] = 1 ∧
    calculate_similarity [(0:ℚ)] [(1:ℚ)] = 0 := by
  constructor
  · exact (calculate_similarity_spec [(1:ℚ)] [(1:ℚ)]).1 ⟨1, by decide, by decide⟩
  · exact (calculate_similarity_spec [(0:ℚ)] [(1:ℚ)]).2
      (Or.inl (by rw [pyNorm_eq_zero_iff]; norm_num [sumSq, dotProd]))

end PFAS
